import Mathlib

set_option maxHeartbeats 1000000

/-!
Shallow embedding of `scripts/audio_processor.py`, the audio classification /
transcoding / manifest pipeline, together with theorems about the pipeline's
behaviour.  Pure Python functions are translated to Lean functions; the two
external command-line collaborators (probe and encoder) are modelled by
passing their observable outcomes in as explicit data.  Python floats are
modelled as exact rationals, and Python strings as Lean strings (lists of
characters where character-level processing is required).
-/

/-- Occurrence of `needle` as a contiguous substring of `haystack`
(the semantics of the Python `in` operator on strings). -/
def containsSub (needle haystack : List Char) : Bool :=
  (List.range (haystack.length + 1)).any (fun i => needle.isPrefixOf (haystack.drop i))

/-- Characters of a string, lowercased (Python `str.lower`). -/
def lowerChars (s : String) : List Char := s.data.map Char.toLower

/-- The test `keyword.lower() in filename.lower()` from `categorize_file`. -/
def keywordMatches (filename keyword : String) : Bool :=
  containsSub (lowerChars keyword) (lowerChars filename)

/-- `AUDIO_CATEGORIES` (audio_processor.py lines 15-65): insertion-ordered
dict from category name to its keyword list, modelled as an ordered
association list. -/
def AUDIO_CATEGORIES : List (String × List String) :=
  [ ("combat",
     [ "shotgun_fire", "shotgun_empty", "shotgun_reload",
       "hatchet_swing", "hatchet_hit_flesh", "hatchet_miss",
       "Heavy_double-barrel", "Dry_click_of_empty", "Shotgun_shell_loadin",
       "Fast_whoosh_sound" ]),
    ("nightman",
     [ "nightman_footstep_heavy", "nightman_footstep_light",
       "nightman_growl_low", "nightman_growl_aggressive",
       "nightman_attack_swing", "nightman_attack_hit",
       "nightman_damaged", "nightman_death",
       "Massive_creature_foo", "Heavy_human-sized_fo",
       "Deep_guttural_monste", "guttural_demon_hunti",
       "Massive_creature_arm", "Heavy_impact_of_mons",
       "Monster_pain_roar", "Massive_creature_dyi" ]),
    ("transformation",
     [ "bone_crack_1", "bone_crack_2", "bone_crack_3",
       "transformation_whoosh", "transformation_complete",
       "Wet_bone_snapping", "Multiple_bones_break",
       "Final_massive_bone", "Dark_ethereal_whoosh",
       "Ominous_low_rumble" ]),
    ("environment",
     [ "window_tap_light", "window_tap_heavy", "window_scratch",
       "window_break", "door_creak", "door_rattle",
       "door_bang_heavy", "door_splinter",
       "Light_tapping_on_woo", "Heavy_pounding_on_wo",
       "Sharp_claws_scratchi", "wooden_board_shatter",
       "Door_handle_rattling", "Massive_impact_on_wo",
       "Wood_door_splinterin", "qubodup-DoorClose08",
       "qubodup-DoorOpen08" ]),
    ("items",
     [ "ammo_pickup", "wood_pickup", "board_hammer",
       "pickup_ammo_sound", "wood_pickup_sound",
       "Hammering_nail_into", "tree_falls_down" ]),
    ("player",
     [ "player_hit_light", "player_hit_heavy",
       "player_death", "player_heartbeat",
       "Male_grunt_of_pain", "Male_scream_of_agony",
       "Male_death_scream", "Realistic_heartbeat" ]),
    ("ambient",
     [ "forest_night_loop", "wind_trees",
       "cabin_ambience", "nightman_roar_distant",
       "stepdirt_1", "stepdirt_2", "stepwood_1", "stepwood_2" ]) ]

/-- An optimization profile (`OPTIMIZATION_PROFILES` values, lines 68-132). -/
structure Profile where
  format : String
  bitrate : String
  sample_rate : Nat
  channels : Nat
  normalize : Bool
  compression : String
  quality : Nat
deriving DecidableEq

/-- `OPTIMIZATION_PROFILES` (audio_processor.py lines 68-132). -/
def OPTIMIZATION_PROFILES : List (String × Profile) :=
  [ ("combat",
     { format := "ogg", bitrate := "96k", sample_rate := 44100, channels := 1,
       normalize := true, compression := "vorbis", quality := 6 }),
    ("nightman",
     { format := "ogg", bitrate := "80k", sample_rate := 44100, channels := 1,
       normalize := true, compression := "vorbis", quality := 5 }),
    ("transformation",
     { format := "ogg", bitrate := "96k", sample_rate := 44100, channels := 1,
       normalize := true, compression := "vorbis", quality := 6 }),
    ("environment",
     { format := "ogg", bitrate := "64k", sample_rate := 44100, channels := 1,
       normalize := true, compression := "vorbis", quality := 4 }),
    ("items",
     { format := "ogg", bitrate := "64k", sample_rate := 44100, channels := 1,
       normalize := true, compression := "vorbis", quality := 4 }),
    ("player",
     { format := "ogg", bitrate := "80k", sample_rate := 44100, channels := 1,
       normalize := true, compression := "vorbis", quality := 5 }),
    ("ambient",
     { format := "ogg", bitrate := "96k", sample_rate := 44100, channels := 2,
       normalize := false, compression := "vorbis", quality := 6 }) ]

/-- The loop of `categorize_file` over the (ordered) category table:
for the first category one of whose keywords occurs case-insensitively in
the filename, return that category; with no match left, return "ambient". -/
def categorizeAux (cats : List (String × List String)) (filename : String) : String :=
  match cats with
  | [] => "ambient"
  | p :: rest =>
    if p.2.any (fun k => keywordMatches filename k) then p.1
    else categorizeAux rest filename

/-- `categorize_file` (audio_processor.py lines 167-173). -/
def categorize_file (filename : String) : String :=
  categorizeAux AUDIO_CATEGORIES filename

/-- Modelled from the spec's words (section 4.2) for comparison with
`categorize_file`: the first category in declared order one of whose
keywords occurs as a case-insensitive substring of the filename,
defaulting to "ambient". -/
def classifySpec (filename : String) : String :=
  ((AUDIO_CATEGORIES.find? (fun p => p.2.any (fun k => keywordMatches filename k))).map
    Prod.fst).getD "ambient"

/-- Profile lookup `OPTIMIZATION_PROFILES[category]`, as a partial map. -/
def lookupProfile (category : String) : Option Profile :=
  (OPTIMIZATION_PROFILES.find? (fun p => p.1 == category)).map Prod.snd

/-- Split a character list at every occurrence of `sep`
(Python `str.split(sep)` for a one-character separator). -/
def splitOnChar (sep : Char) : List Char → List (List Char)
  | [] => [[]]
  | c :: rest =>
    match splitOnChar sep rest with
    | [] => if c = sep then [[], []] else [[c]]
    | h :: t => if c = sep then [] :: h :: t else (c :: h) :: t

/-- Last path component (`Path(p).name` for a relative file path). -/
def baseName (p : String) : String :=
  String.mk ((splitOnChar '/' p.data).getLastD [])

/-- Index of the last occurrence of a dot, if any (`str.rfind` on a name). -/
def rfindDot : List Char → Option Nat
  | [] => none
  | c :: rest =>
    match rfindDot rest with
    | some i => some (i + 1)
    | none => if c = '.' then some 0 else none

/-- `Path(p).stem`: the final path component with its last suffix removed;
a suffix exists only when the last dot is neither the first nor the last
character of the name. -/
def pathStem (p : String) : String :=
  let name := baseName p
  let cs := name.data
  match rfindDot cs with
  | some i => if 0 < i ∧ i + 1 < cs.length then String.mk (cs.take i) else name
  | none => name

/-- The metadata record returned by `analyze_audio_file` on success
(audio_processor.py lines 153-161); durations and sizes are exact
rationals standing for the Python floats. -/
structure AudioInfo where
  file : String
  size_kb : ℚ
  codec : String
  sample_rate : Nat
  channels : Nat
  bitrate : Nat
  duration : ℚ
deriving DecidableEq

/-- A value of the `spritemap` dict built by `create_audio_sprite_manifest`
(audio_processor.py lines 214-218). -/
structure SpriteEntry where
  start : ℚ
  stop : ℚ
  loop : Bool
deriving DecidableEq

/-- The loop of `create_audio_sprite_manifest` (lines 210-219): walk the
analyzed files in order with a running time cursor; each file with a present
analysis of strictly positive duration yields a spritemap entry
`[cursor, cursor + duration)` keyed by its stem, after which the cursor
advances by `duration + 0.1`; other files yield nothing and leave the
cursor unchanged. -/
def spriteAux (cur : ℚ) : List (String × Option AudioInfo) → List (String × SpriteEntry)
  | [] => []
  | (filepath, info) :: rest =>
    match info with
    | some i =>
      if 0 < i.duration then
        (pathStem filepath, { start := cur, stop := cur + i.duration, loop := false }) ::
          spriteAux (cur + i.duration + 1/10) rest
      else spriteAux cur rest
    | none => spriteAux cur rest

/-- `create_audio_sprite_manifest` (audio_processor.py lines 203-221),
returning the ordered `spritemap` association list (the `resources` field is
a constant empty dict and is omitted). -/
def create_audio_sprite_manifest (files : List (String × Option AudioInfo)) :
    List (String × SpriteEntry) :=
  spriteAux 0 files

/-- The guard `info and info['duration'] > 0` of the sprite loop. -/
def hasPositiveDuration (p : String × Option AudioInfo) : Bool :=
  match p.2 with
  | some i => decide (0 < i.duration)
  | none => false

/-- Sum of the durations of the first `i` files. -/
def dSum (files : List (String × AudioInfo)) (i : Nat) : ℚ :=
  ((files.take i).map (fun p => p.2.duration)).sum

/-- A default analyzed-file pair, used as the `getD` fallback. -/
def dfltPair : String × AudioInfo :=
  ("", { file := "", size_kb := 0, codec := "", sample_rate := 0, channels := 0,
         bitrate := 0, duration := 0 })

/-- A concrete analyzed-file record used by the witnesses. -/
def witnessInfo (fn : String) (d : ℚ) : AudioInfo :=
  { file := fn, size_kb := 100, codec := "pcm_s16le", sample_rate := 44100,
    channels := 1, bitrate := 705, duration := d }

/-- Three concrete analyzed assets with durations 2, 3.5 and 1 seconds. -/
def spriteFilesC : List (String × AudioInfo) :=
  [("shotgun_fire.wav", witnessInfo "shotgun_fire.wav" 2),
   ("door_creak.wav", witnessInfo "door_creak.wav" (7/2)),
   ("wind_trees.wav", witnessInfo "wind_trees.wav" 1)]

/-- The analyzed assets of `spriteFilesC`, as the sprite builder receives
them. -/
def spriteFilesCOpt : List (String × Option AudioInfo) :=
  spriteFilesC.map (fun p => (p.1, some p.2))

/-- The first sprite entry built from `spriteFilesCOpt`. -/
def spriteEntryC : SpriteEntry := { start := 0, stop := 2, loop := false }

/-- Fueled worker for `strReplace`; the fuel is the length of the remaining
character list, which each step strictly decreases (each step consumes at
least one character), so the fuel never runs out on the initial call. -/
def replaceAllF (pat rep : List Char) : Nat → List Char → List Char
  | 0, s => s
  | _, [] => []
  | fuel + 1, c :: rest =>
    if pat.isPrefixOf (c :: rest) && !pat.isEmpty then
      rep ++ replaceAllF pat rep fuel (rest.drop (pat.length - 1))
    else c :: replaceAllF pat rep fuel rest

/-- Python `str.replace(pat, rep)` (for a nonempty pattern): replace every
non-overlapping occurrence of `pat`, scanning left to right. -/
def strReplace (s pat rep : String) : String :=
  String.mk (replaceAllF pat.data rep.data s.data.length s.data)

/-- The key sanitization of `generate_typescript_map`
(audio_processor.py lines 363-366): strip the `.wav` and `.ogg` extensions,
then remove the substrings `#1-`, `#2-`, `#3-`, `#4-`, and finally `_#`. -/
def cleanKey (original : String) : String :=
  let k0 := strReplace (strReplace original ".wav" "") ".ogg" ""
  let k1 := strReplace (strReplace (strReplace (strReplace k0 "#1-" "") "#2-" "") "#3-" "")
    "#4-" ""
  strReplace k1 "_#" ""

/-- Observable outcome of invoking the external encoder with
`subprocess.run`: either the process exits with some code, or the
invocation itself raises an exception. -/
inductive ProcOutcome where
  | exited (code : Int)
  | raised
deriving DecidableEq

/-- The ffmpeg invocation built by `optimize_audio_file`
(audio_processor.py lines 179-193). -/
def buildFfmpegCmd (input_path output_path : String) (profile : Profile) : List String :=
  ["ffmpeg", "-i", input_path, "-y", "-acodec", "libvorbis",
   "-ac", toString profile.channels,
   "-ar", toString profile.sample_rate,
   "-q:a", toString profile.quality] ++
  (if profile.normalize then ["-af", "loudnorm=I=-16:TP=-1.5:LRA=11"] else []) ++
  [output_path]

/-- `optimize_audio_file` (audio_processor.py lines 176-200): builds the
encoder invocation, runs it, and returns `returncode == 0`; any invocation
exception is caught and yields `false`.  The outcome of the external process
is passed in explicitly. -/
def optimize_audio_file (input_path output_path : String) (profile : Profile)
    (outcome : ProcOutcome) : Bool :=
  match outcome with
  | .exited code => code == 0
  | .raised => false

/-- Adjacent pairs of a list: `(l[i], l[i+1])` for each consecutive pair of
positions; an option flag and its argument appear in a command line exactly
when they form such a pair. -/
def adjPairs {α : Type} : List α → List (α × α)
  | [] => []
  | [_] => []
  | a :: b :: t => (a, b) :: adjPairs (b :: t)

/-- One iteration's worth of input to the optimization loop of `main`
(audio_processor.py lines 264-294): the analyzed file together with the
observable behaviour of the external world for it (the encoder process
outcome and the size `os.path.getsize` reports for the written output). -/
structure LoopItem where
  filepath : String
  info : AudioInfo
  encOutcome : ProcOutcome
  optimizedSize : ℚ
deriving DecidableEq

/-- `audio_dir = Path('public/assets/audio')`, as path segments. -/
def audio_dir_segs : List String := ["public", "assets", "audio"]

/-- `output_dir = Path('public/assets/audio/optimized')`, as path segments. -/
def output_dir_segs : List String := audio_dir_segs ++ ["optimized"]

/-- Join path segments with `/` (string form of a relative POSIX path). -/
def joinSegs : List String → String
  | [] => ""
  | s :: rest => rest.foldl (fun acc t => acc ++ "/" ++ t) s

/-- `Path.relative_to`: strip `base` off the front of `p`; `none` models the
ValueError raised when `base` is not a prefix. -/
def relative_to (p base : List String) : Option (List String) :=
  if base.isPrefixOf p then some (p.drop base.length) else none

/-- The profile chosen for an item: `OPTIMIZATION_PROFILES[category]` with
`category = categorize_file(info['file'])` (lines 265-266); the lookup never
misses (C5), so the `getD` default is unreachable. -/
def itemProfile (it : LoopItem) : Profile :=
  (lookupProfile (categorize_file it.info.file)).getD
    { format := "", bitrate := "", sample_rate := 0, channels := 0,
      normalize := false, compression := "", quality := 0 }

/-- `output_path = output_dir / category / (input_path.stem + '.ogg')`
(lines 269-271), as path segments. -/
def outputPathSegs (it : LoopItem) : List String :=
  output_dir_segs ++ [categorize_file it.info.file, pathStem it.filepath ++ ".ogg"]

/-- Whether `optimize_audio_file` succeeds for this item (line 278). -/
def transcodeSuccess (it : LoopItem) : Bool :=
  optimize_audio_file it.filepath (joinSegs (outputPathSegs it)) (itemProfile it)
    it.encOutcome

/-- An element of the `optimized_files` list (lines 286-292). -/
structure OptimizedFile where
  original : String
  optimized : String
  category : String
  size_before : ℚ
  size_after : ℚ
deriving DecidableEq

/-- The dict appended to `optimized_files` on success (lines 286-292); its
`optimized` field is `output_path.relative_to(Path('public/assets/audio'))`
rendered as a string. -/
def mkOptimizedEntry (it : LoopItem) : OptimizedFile :=
  { original := it.info.file,
    optimized :=
      joinSegs ((relative_to (outputPathSegs it) audio_dir_segs).getD (outputPathSegs it)),
    category := categorize_file it.info.file,
    size_before := it.info.size_kb,
    size_after := it.optimizedSize }

/-- Status lines printed per file during the optimization loop
(lines 274-294): the processing header, the category and profile lines, and
then either the OK line with before/after sizes (the printed percentage is
derived from those two) or the bare failure marker. -/
inductive LogLine where
  | processing (file : String)
  | categoryLine (category : String)
  | profileLine (bitrate : String) (channels sample_rate : Nat)
  | okLine (size_before size_after : ℚ)
  | failLine
deriving DecidableEq

/-- The block of status lines the loop prints for one item. -/
def fileLog (it : LoopItem) : List LogLine :=
  [.processing it.info.file,
   .categoryLine (categorize_file it.info.file),
   .profileLine (itemProfile it).bitrate (itemProfile it).channels
     (itemProfile it).sample_rate] ++
  (if transcodeSuccess it then [.okLine it.info.size_kb it.optimizedSize]
   else [.failLine])

/-- The mutable state of the optimization loop: `total_size_after`,
`optimized_files`, and the status output so far. -/
structure RunState where
  total_size_after : ℚ
  optimized_files : List OptimizedFile
  log : List LogLine
deriving DecidableEq

/-- One iteration of the optimization loop (lines 264-294). -/
def stepFile (st : RunState) (it : LoopItem) : RunState :=
  if transcodeSuccess it then
    { total_size_after := st.total_size_after + it.optimizedSize,
      optimized_files := st.optimized_files ++ [mkOptimizedEntry it],
      log := st.log ++ fileLog it }
  else
    { st with log := st.log ++ fileLog it }

/-- The whole optimization loop, started from the empty state
(`total_size_after = 0`, `optimized_files = []`). -/
def runOptimize (items : List LoopItem) : RunState :=
  items.foldl stepFile { total_size_after := 0, optimized_files := [], log := [] }

/-- The final manifest dict (audio_processor.py lines 305-311). -/
structure Manifest where
  version : String
  files : List OptimizedFile
  categories : List (String × List String)
  total_files : Nat
  total_size_kb : ℚ
deriving DecidableEq

/-- The manifest built at the end of a run from the accumulated state. -/
def mkManifest (items : List LoopItem) : Manifest :=
  { version := "1.0",
    files := (runOptimize items).optimized_files,
    categories := AUDIO_CATEGORIES,
    total_files := (runOptimize items).optimized_files.length,
    total_size_kb := (runOptimize items).total_size_after }

/-- The status output of the whole loop, file block by file block. -/
def runLog : List LoopItem → List LogLine
  | [] => []
  | it :: rest => fileLog it ++ runLog rest

/-- A concrete loop item whose transcode succeeds. -/
def itemA : LoopItem :=
  { filepath := "public/assets/audio/ammo_pickup.wav",
    info := witnessInfo "ammo_pickup.wav" 2,
    encOutcome := .exited 0, optimizedSize := 40 }

/-- A concrete loop item whose transcode fails (encoder exit code 1). -/
def itemB : LoopItem :=
  { filepath := "public/assets/audio/door_creak.wav",
    info := witnessInfo "door_creak.wav" (mkRat 7 2),
    encOutcome := .exited 1, optimizedSize := 50 }

/-- A concrete loop item whose transcode succeeds. -/
def itemC : LoopItem :=
  { filepath := "public/assets/audio/wind_trees.wav",
    info := witnessInfo "wind_trees.wav" 1,
    encOutcome := .exited 0, optimizedSize := 60 }

/-- A concrete batch in which the middle item's transcode fails. -/
def itemsD : List LoopItem := [itemA, itemB, itemC]

theorem categorizeAux_eq_find (cats : List (String × List String)) (f : String) :
    categorizeAux cats f =
      ((cats.find? (fun p => p.2.any (fun k => keywordMatches f k))).map Prod.fst).getD
        "ambient" := by
  induction cats with
  | nil => rfl
  | cons p rest ih =>
    cases h : p.2.any (fun k => keywordMatches f k) with
    | true => simp [categorizeAux, h, List.find?_cons_of_pos, h]
    | false => simp [categorizeAux, h, List.find?_cons_of_neg, ih]

theorem categorizeAux_mem (cats : List (String × List String)) (f : String) :
    categorizeAux cats f = "ambient" ∨ categorizeAux cats f ∈ cats.map Prod.fst := by
  induction cats with
  | nil => exact Or.inl rfl
  | cons p rest ih =>
    by_cases h : p.2.any (fun k => keywordMatches f k) = true
    · right
      simp [categorizeAux, h]
    · rcases ih with h1 | h1
      · left
        simpa [categorizeAux, h] using h1
      · right
        simp only [categorizeAux, h, if_false, Bool.false_eq_true]
        exact List.mem_cons_of_mem _ h1

theorem categorize_file_mem (f : String) :
    categorize_file f ∈ AUDIO_CATEGORIES.map Prod.fst := by
  rcases categorizeAux_mem AUDIO_CATEGORIES f with h | h
  · rw [categorize_file, h]
    decide
  · exact h

/-- C1: `categorize_file` is a total deterministic function returning exactly
one category; it agrees everywhere with the spec's first-match-wins rule
(first category in the Registry's declared order with a keyword occurring as a
case-insensitive substring of the filename, defaulting to "ambient"), so a
filename matching keywords of two categories resolves to the
earlier-declared one. -/
theorem C1_classifier_first_match (f : String) :
    categorize_file f = classifySpec f ∧
      categorize_file f ∈ AUDIO_CATEGORIES.map Prod.fst := by
  refine ⟨?_, categorize_file_mem f⟩
  rw [categorize_file, classifySpec, categorizeAux_eq_find]

theorem lookupProfile_isSome_of_mem (c : String)
    (h : c ∈ AUDIO_CATEGORIES.map Prod.fst) : (lookupProfile c).isSome := by
  fin_cases h <;> decide

/-- C5: for every category in the registry's fixed enumeration there is
exactly one optimization profile, and the profile lookup performed on the
classifier's output is defined for every filename. -/
theorem C5_profile_completeness :
    (∀ c ∈ AUDIO_CATEGORIES.map Prod.fst,
        (OPTIMIZATION_PROFILES.filter (fun q => q.1 == c)).length = 1) ∧
      ∀ f : String, (lookupProfile (categorize_file f)).isSome := by
  constructor
  · decide
  · intro f
    exact lookupProfile_isSome_of_mem _ (categorize_file_mem f)

/-- Witness for C5 at the concrete category "combat" and the concrete
filename "shotgun_fire.wav". -/
theorem C5_profile_completeness_witness :
    ("combat" ∈ AUDIO_CATEGORIES.map Prod.fst ∧
        (OPTIMIZATION_PROFILES.filter (fun q => q.1 == "combat")).length = 1) ∧
      (lookupProfile (categorize_file "shotgun_fire.wav")).isSome :=
  ⟨⟨by decide, C5_profile_completeness.1 "combat" (by decide)⟩,
    C5_profile_completeness.2 "shotgun_fire.wav"⟩

theorem spriteAux_filter (cur : ℚ) (L : List (String × Option AudioInfo)) :
    spriteAux cur L = spriteAux cur (L.filter hasPositiveDuration) := by
  induction L generalizing cur with
  | nil => rfl
  | cons p rest ih =>
    obtain ⟨fp, info⟩ := p
    cases info with
    | none => simpa [spriteAux, hasPositiveDuration] using ih cur
    | some i =>
      by_cases h : 0 < i.duration
      · simp [spriteAux, hasPositiveDuration, h, List.filter_cons, ih]
      · simpa [spriteAux, hasPositiveDuration, h, List.filter_cons] using ih cur

theorem spriteAux_pos_formula (files : List (String × AudioInfo)) :
    ∀ (cur : ℚ) (i : Nat), i < files.length →
      (∀ p ∈ files, 0 < p.2.duration) →
      (spriteAux cur (files.map (fun p => (p.1, some p.2))))[i]? =
        some (pathStem (files.getD i dfltPair).1,
          { start := cur + dSum files i + (i : ℚ) * (1/10),
            stop := cur + dSum files i + (i : ℚ) * (1/10) + (files.getD i dfltPair).2.duration,
            loop := false }) := by
  induction files with
  | nil =>
    intro cur i hi _
    simp at hi
  | cons p rest ih =>
    intro cur i hi hpos
    have hp : 0 < p.2.duration := hpos p (List.mem_cons_self _ _)
    cases i with
    | zero =>
      simp [spriteAux, hp, dSum]
    | succ n =>
      have hrest : ∀ q ∈ rest, 0 < q.2.duration := fun q hq =>
        hpos q (List.mem_cons_of_mem _ hq)
      have hn : n < rest.length := by
        simpa using Nat.lt_of_succ_lt_succ (by simpa using hi)
      have hih := ih (cur + p.2.duration + 1/10) n hn hrest
      simp only [List.map_cons, spriteAux, hp, if_pos, List.getElem?_cons_succ]
      rw [hih]
      simp only [Option.some.injEq, Prod.mk.injEq, SpriteEntry.mk.injEq,
        List.getD_cons_succ, dSum, List.take_succ_cons, List.map_cons, List.sum_cons]
      exact ⟨trivial, by push_cast; ring, by push_cast; ring, trivial⟩

/-- C2: the sprite builder walks the analyzed assets in order with a cursor
starting at 0; assets with missing analysis or non-positive duration are
transparent (dropping them changes nothing), and when every asset has a known
strictly positive duration, the i-th entry (0-based) spans exactly
`[sum of the first i durations + i/10, start + duration_i)`. -/
theorem C2_sprite_timeline :
    (∀ L, create_audio_sprite_manifest L =
        create_audio_sprite_manifest (L.filter hasPositiveDuration)) ∧
      ∀ (files : List (String × AudioInfo)), (∀ p ∈ files, 0 < p.2.duration) →
        ∀ i : Nat, i < files.length →
          (create_audio_sprite_manifest (files.map (fun p => (p.1, some p.2))))[i]? =
            some (pathStem (files.getD i dfltPair).1,
              { start := dSum files i + (i : ℚ) * (1/10),
                stop := dSum files i + (i : ℚ) * (1/10) +
                  (files.getD i dfltPair).2.duration,
                loop := false }) := by
  constructor
  · intro L
    exact spriteAux_filter 0 L
  · intro files hpos i hi
    simpa [create_audio_sprite_manifest] using spriteAux_pos_formula files 0 i hi hpos

/-- Witness for C2 at three concrete assets, checking the third entry. -/
theorem C2_sprite_timeline_witness :
    (∀ p ∈ spriteFilesC, 0 < p.2.duration) ∧ 2 < spriteFilesC.length ∧
      (create_audio_sprite_manifest (spriteFilesC.map (fun p => (p.1, some p.2))))[2]? =
        some (pathStem (spriteFilesC.getD 2 dfltPair).1,
          { start := dSum spriteFilesC 2 + ((2 : Nat) : ℚ) * (1/10),
            stop := dSum spriteFilesC 2 + ((2 : Nat) : ℚ) * (1/10) +
              (spriteFilesC.getD 2 dfltPair).2.duration,
            loop := false }) :=
  ⟨by with_unfolding_all decide, by decide,
    C2_sprite_timeline.2 spriteFilesC (by with_unfolding_all decide) 2 (by decide)⟩

theorem spriteAux_entries (L : List (String × Option AudioInfo)) :
    ∀ (cur : ℚ) (k : String) (e : SpriteEntry), (k, e) ∈ spriteAux cur L →
      e.loop = false ∧ ∃ fp i, (fp, some i) ∈ L ∧ k = pathStem fp ∧
        e.stop - e.start = i.duration ∧ 0 < i.duration := by
  induction L with
  | nil =>
    intro cur k e h
    simp [spriteAux] at h
  | cons p rest ih =>
    intro cur k e h
    obtain ⟨fp, info⟩ := p
    cases info with
    | none =>
      obtain ⟨hl, fp', i', hmem, hrest⟩ := ih cur k e (by simpa [spriteAux] using h)
      exact ⟨hl, fp', i', List.mem_cons_of_mem _ hmem, hrest⟩
    | some i =>
      by_cases hd : 0 < i.duration
      · rw [spriteAux, if_pos hd] at h
        rcases List.mem_cons.1 h with heq | htail
        · obtain ⟨hk, he⟩ := Prod.mk.injEq .. ▸ heq
          subst he
          exact ⟨rfl, fp, i, List.mem_cons_self _ _, hk ▸ rfl, by ring, hd⟩
        · obtain ⟨hl, fp', i', hmem, hrest⟩ := ih _ k e htail
          exact ⟨hl, fp', i', List.mem_cons_of_mem _ hmem, hrest⟩
      · rw [spriteAux, if_neg hd] at h
        obtain ⟨hl, fp', i', hmem, hrest⟩ := ih cur k e h
        exact ⟨hl, fp', i', List.mem_cons_of_mem _ hmem, hrest⟩

/-- C9: every entry produced by the sprite builder has its loop flag false,
and its end minus its start is exactly the probed duration of the asset it
was built from (which is strictly positive). -/
theorem C9_sprite_loop_duration (files : List (String × Option AudioInfo))
    (k : String) (e : SpriteEntry) (h : (k, e) ∈ create_audio_sprite_manifest files) :
    e.loop = false ∧ ∃ fp i, (fp, some i) ∈ files ∧ k = pathStem fp ∧
      e.stop - e.start = i.duration ∧ 0 < i.duration :=
  spriteAux_entries files 0 k e h

/-- Witness for C9 at a concrete sprite entry of a concrete asset list. -/
theorem C9_sprite_loop_duration_witness :
    (("shotgun_fire", spriteEntryC) ∈ create_audio_sprite_manifest spriteFilesCOpt) ∧
      (spriteEntryC.loop = false ∧ ∃ fp i, (fp, some i) ∈ spriteFilesCOpt ∧
        "shotgun_fire" = pathStem fp ∧
        spriteEntryC.stop - spriteEntryC.start = i.duration ∧ 0 < i.duration) :=
  ⟨by with_unfolding_all decide,
    C9_sprite_loop_duration spriteFilesCOpt "shotgun_fire" spriteEntryC
      (by with_unfolding_all decide)⟩

/-- Counterexample to C4 as stated: the original filename
`Fast_whoosh_sound_#1-v2.wav` does not sanitize to `Fast_whoosh_sound-v2`;
removing `#1-` leaves the preceding underscore in place, giving
`Fast_whoosh_sound_v2`. -/
theorem C4_sanitize_counterexample :
    cleanKey "Fast_whoosh_sound_#1-v2.wav" ≠ "Fast_whoosh_sound-v2" := by decide

/-- C4 (amended): the key sanitization strips the `.wav` and `.ogg`
extensions and removes the substrings `#1-`, `#2-`, `#3-`, `#4-` and then
`_#`; the original filename `Fast_whoosh_sound_#1-v2.wav` sanitizes to
`Fast_whoosh_sound_v2`, and a marker with a digit outside 1-4 is not
removed (though its leading `_#` is). -/
theorem C4_sanitize_amended :
    cleanKey "Fast_whoosh_sound_#1-v2.wav" = "Fast_whoosh_sound_v2" ∧
      cleanKey "echo_#5-take.wav" = "echo5-take" := by decide

/-- C6: the transcoder always returns a boolean (never propagates an error):
`true` exactly when the encoder process exits with code zero, `false` on
every nonzero exit and on an invocation exception. -/
theorem C6_transcode_result (input_path output_path : String) (profile : Profile)
    (outcome : ProcOutcome) :
    (optimize_audio_file input_path output_path profile outcome = true ↔
        outcome = .exited 0) ∧
      (∀ code : Int, code ≠ 0 →
        optimize_audio_file input_path output_path profile (.exited code) = false) ∧
      optimize_audio_file input_path output_path profile .raised = false := by
  refine ⟨?_, ?_, rfl⟩
  · cases outcome with
    | exited code =>
      simp [optimize_audio_file]
    | raised =>
      simp [optimize_audio_file]
  · intro code hc
    simp [optimize_audio_file, hc]

/-- Witness for C6 at concrete paths, a concrete profile and concrete
process outcomes. -/
theorem C6_transcode_result_witness :
    (optimize_audio_file "a.wav" "b.ogg"
        { format := "ogg", bitrate := "96k", sample_rate := 44100, channels := 1,
          normalize := true, compression := "vorbis", quality := 6 }
        (.exited 0) = true ↔ ProcOutcome.exited 0 = .exited 0) ∧
      ((1 : Int) ≠ 0 ∧
        optimize_audio_file "a.wav" "b.ogg"
          { format := "ogg", bitrate := "96k", sample_rate := 44100, channels := 1,
            normalize := true, compression := "vorbis", quality := 6 }
          (.exited 1) = false) ∧
      optimize_audio_file "a.wav" "b.ogg"
        { format := "ogg", bitrate := "96k", sample_rate := 44100, channels := 1,
          normalize := true, compression := "vorbis", quality := 6 }
        .raised = false :=
  ⟨(C6_transcode_result "a.wav" "b.ogg" _ (.exited 0)).1,
    ⟨by decide, (C6_transcode_result "a.wav" "b.ogg" _ (.exited 0)).2.1 1 (by decide)⟩,
    (C6_transcode_result "a.wav" "b.ogg" _ (.exited 0)).2.2⟩

theorem mem_adjPairs_append {α : Type} (l : List α) :
    ∀ (t : List α) (a b : α), (a, b) ∈ adjPairs (l ++ a :: b :: t) := by
  induction l with
  | nil =>
    intro t a b
    exact List.mem_cons_self _ _
  | cons c l' ih =>
    intro t a b
    rw [List.cons_append]
    cases h : l' ++ a :: b :: t with
    | nil => simp at h
    | cons y ys =>
      simp only [adjPairs]
      refine List.mem_cons_of_mem _ ?_
      rw [← h]
      exact ih t a b

theorem mem_adjPairs_dropLast {α : Type} (cmd l r : List α) (a b : α)
    (heq : cmd = l ++ a :: b :: r) (hr : r ≠ []) :
    (a, b) ∈ adjPairs cmd.dropLast := by
  obtain ⟨r', x, hx⟩ : ∃ r' x, r = r' ++ [x] :=
    ⟨r.dropLast, r.getLast hr, (List.dropLast_append_getLast hr).symm⟩
  have hcmd : cmd = (l ++ a :: b :: r') ++ [x] := by
    simp [heq, hx]
  rw [hcmd, List.dropLast_concat]
  exact mem_adjPairs_append l r' a b

/-- C7: the encoder invocation passes the profile's channel count after
`-ac`, its sample rate after `-ar` and its quality after `-q:a`, and it
contains the loudness-normalization filter argument
`loudnorm=I=-16:TP=-1.5:LRA=11` after an `-af` flag (before the trailing
output-path argument) if and only if `profile.normalize` is true. -/
theorem C7_encoder_invocation (input_path output_path : String) (profile : Profile) :
    (("-ac", toString profile.channels) ∈
        adjPairs (buildFfmpegCmd input_path output_path profile)) ∧
      (("-ar", toString profile.sample_rate) ∈
        adjPairs (buildFfmpegCmd input_path output_path profile)) ∧
      (("-q:a", toString profile.quality) ∈
        adjPairs (buildFfmpegCmd input_path output_path profile)) ∧
      ((("-af", "loudnorm=I=-16:TP=-1.5:LRA=11") ∈
          adjPairs (buildFfmpegCmd input_path output_path profile).dropLast) ↔
        profile.normalize = true) := by
  cases hn : profile.normalize with
  | true =>
    refine ⟨?_, ?_, ?_, ?_⟩ <;>
      simp [buildFfmpegCmd, hn, adjPairs, List.dropLast]
  | false =>
    refine ⟨?_, ?_, ?_, ?_⟩
    · simp [buildFfmpegCmd, hn, adjPairs]
    · simp [buildFfmpegCmd, hn, adjPairs]
    · simp [buildFfmpegCmd, hn, adjPairs]
    · simp [buildFfmpegCmd, hn, adjPairs, List.dropLast, Prod.ext_iff]

theorem foldl_stepFile (items : List LoopItem) :
    ∀ st : RunState,
      (items.foldl stepFile st).optimized_files =
          st.optimized_files ++ (items.filter transcodeSuccess).map mkOptimizedEntry ∧
        (items.foldl stepFile st).total_size_after =
          st.total_size_after +
            ((items.filter transcodeSuccess).map LoopItem.optimizedSize).sum ∧
        (items.foldl stepFile st).log = st.log ++ runLog items := by
  induction items with
  | nil =>
    intro st
    simp [runLog]
  | cons it rest ih =>
    intro st
    obtain ⟨h1, h2, h3⟩ := ih (stepFile st it)
    refine ⟨?_, ?_, ?_⟩
    · rw [List.foldl_cons, h1]
      by_cases hs : transcodeSuccess it = true <;>
        simp [stepFile, hs, List.filter_cons]
    · rw [List.foldl_cons, h2]
      by_cases hs : transcodeSuccess it = true <;>
        simp [stepFile, hs, List.filter_cons, add_assoc]
    · rw [List.foldl_cons, h3]
      by_cases hs : transcodeSuccess it = true <;>
        simp [stepFile, hs, runLog]

theorem map_size_after_map_entry (l : List LoopItem) :
    (l.map mkOptimizedEntry).map OptimizedFile.size_after =
      l.map LoopItem.optimizedSize := by
  induction l with
  | nil => rfl
  | cons it rest ih => simp [mkOptimizedEntry, ih]

/-- C3: the finalized manifest's `total_size_kb` is the sum of `size_after`
over its `files` entries, and its `total_files` is the number of those
entries; both are computed from the accumulated loop state. -/
theorem C3_manifest_totals (items : List LoopItem) :
    (mkManifest items).total_size_kb =
        ((mkManifest items).files.map OptimizedFile.size_after).sum ∧
      (mkManifest items).total_files = (mkManifest items).files.length := by
  obtain ⟨h1, h2, -⟩ :=
    foldl_stepFile items { total_size_after := 0, optimized_files := [], log := [] }
  refine ⟨?_, rfl⟩
  simp only [mkManifest, runOptimize, h1, h2, List.nil_append, zero_add,
    map_size_after_map_entry]

theorem runLog_infix (items : List LoopItem) (it : LoopItem) (h : it ∈ items) :
    ∃ pre post, runLog items = pre ++ fileLog it ++ post := by
  induction items with
  | nil => cases h
  | cons u rest ih =>
    rcases List.mem_cons.1 h with heq | hmem
    · exact ⟨[], runLog rest, by simp [runLog, heq]⟩
    · obtain ⟨pre, post, hpp⟩ := ih hmem
      exact ⟨fileLog u ++ pre, post, by simp [runLog, hpp]⟩

/-- C8: a per-file encoder failure is isolated: the failed file (unique by
original filename) appears nowhere in the manifest's `files`, the manifest
is exactly the successful items in order with `total_size_kb` the sum of
their sizes (so the failure contributes nothing), and the loop's status
output contains the failed file's block, ending in the failure marker. -/
theorem C8_failure_isolated (items : List LoopItem) (it : LoopItem)
    (hmem : it ∈ items) (hfail : transcodeSuccess it = false)
    (huniq : ∀ u ∈ items, u.info.file = it.info.file → u = it) :
    (∀ e ∈ (mkManifest items).files, e.original ≠ it.info.file) ∧
      (mkManifest items).files =
        (items.filter transcodeSuccess).map mkOptimizedEntry ∧
      (mkManifest items).total_size_kb =
        ((items.filter transcodeSuccess).map LoopItem.optimizedSize).sum ∧
      ∃ pre post, (runOptimize items).log = pre ++ fileLog it ++ post ∧
        LogLine.failLine ∈ fileLog it := by
  obtain ⟨h1, h2, h3⟩ :=
    foldl_stepFile items { total_size_after := 0, optimized_files := [], log := [] }
  have hfiles : (mkManifest items).files =
      (items.filter transcodeSuccess).map mkOptimizedEntry := by
    simp only [mkManifest, runOptimize, h1, List.nil_append]
  refine ⟨?_, hfiles, ?_, ?_⟩
  · intro e he heq
    rw [hfiles] at he
    obtain ⟨u, hu, rfl⟩ := List.mem_map.1 he
    obtain ⟨humem, husucc⟩ := List.mem_filter.1 hu
    have : u = it := huniq u humem (by simpa [mkOptimizedEntry] using heq)
    rw [this, hfail] at husucc
    cases husucc
  · simp only [mkManifest, runOptimize, h2, List.nil_append, zero_add]
  · obtain ⟨pre, post, hpp⟩ := runLog_infix items it hmem
    refine ⟨pre, post, ?_, ?_⟩
    · simp only [runOptimize] at h3
      rw [runOptimize, h3, List.nil_append, hpp]
    · simp [fileLog, hfail]

theorem mkOptimizedEntry_optimized (u : LoopItem) :
    (mkOptimizedEntry u).optimized =
      "optimized/" ++ categorize_file u.info.file ++ "/" ++
        (pathStem u.filepath ++ ".ogg") := rfl

/-- C10: every manifest `files` entry comes from a successfully transcoded
item, its `category` is the classifier's output on the item's filename, and
its `optimized` path is `optimized/<category>/<original stem>.ogg` — the
extension and the per-category subdirectory do not depend on the profile. -/
theorem C10_optimized_path (items : List LoopItem) :
    ∀ e ∈ (mkManifest items).files, ∃ u, u ∈ items ∧ transcodeSuccess u = true ∧
      e = mkOptimizedEntry u ∧
      e.category = categorize_file u.info.file ∧
      e.optimized = "optimized/" ++ categorize_file u.info.file ++ "/" ++
        (pathStem u.filepath ++ ".ogg") := by
  intro e he
  obtain ⟨h1, -, -⟩ :=
    foldl_stepFile items { total_size_after := 0, optimized_files := [], log := [] }
  rw [show (mkManifest items).files = (runOptimize items).optimized_files from rfl,
    runOptimize, h1, List.nil_append] at he
  obtain ⟨u, hu, rfl⟩ := List.mem_map.1 he
  obtain ⟨humem, husucc⟩ := List.mem_filter.1 hu
  exact ⟨u, humem, husucc, rfl, rfl, mkOptimizedEntry_optimized u⟩

/-- Witness for C8 at the concrete batch `itemsD`, whose middle item fails. -/
theorem C8_failure_isolated_witness :
    (itemB ∈ itemsD ∧ transcodeSuccess itemB = false ∧
        ∀ u ∈ itemsD, u.info.file = itemB.info.file → u = itemB) ∧
      (∀ e ∈ (mkManifest itemsD).files, e.original ≠ itemB.info.file) ∧
      (mkManifest itemsD).files =
        (itemsD.filter transcodeSuccess).map mkOptimizedEntry ∧
      (mkManifest itemsD).total_size_kb =
        ((itemsD.filter transcodeSuccess).map LoopItem.optimizedSize).sum ∧
      ∃ pre post, (runOptimize itemsD).log = pre ++ fileLog itemB ++ post ∧
        LogLine.failLine ∈ fileLog itemB :=
  ⟨⟨by decide, by decide, by decide⟩,
    C8_failure_isolated itemsD itemB (by decide) (by decide) (by decide)⟩

/-- Witness for C10 at a concrete manifest entry of the batch `itemsD`. -/
theorem C10_optimized_path_witness :
    (mkOptimizedEntry itemA ∈ (mkManifest itemsD).files) ∧
      ∃ u, u ∈ itemsD ∧ transcodeSuccess u = true ∧
        mkOptimizedEntry itemA = mkOptimizedEntry u ∧
        (mkOptimizedEntry itemA).category = categorize_file u.info.file ∧
        (mkOptimizedEntry itemA).optimized =
          "optimized/" ++ categorize_file u.info.file ++ "/" ++
            (pathStem u.filepath ++ ".ogg") :=
  ⟨by decide, C10_optimized_path itemsD (mkOptimizedEntry itemA) (by decide)⟩
